import Mathlib

/-!
Verification of the data filtering/aggregation layer of the OECD
agricultural-environmental dashboard.

The embedded code is `front-end/src/utils/filter.ts` (functions
`filterProtectionCoefficient`, `getNutrientSurplusByCountry`,
`getScatterData`, `groupByMeasure`) together with the grouping logic
inside the `TimeSeries` component. Records are the rows of
`front-end/src/types/EnvData.ts`. JavaScript `Map` objects (insertion
ordered, overwrite on `set`) and plain objects used as dictionaries are
modelled by association lists with explicit `mapGet` / `mapSet` /
`mapUpdate` operations; numeric `value` fields are modelled by `ℚ`.
-/

/-- One row of the source dataset, after the structure of
`front-end/src/types/EnvData.ts`. Numeric fields are modelled by `Int`/`ℚ`;
the optional `BASE_PER` field by `Option ℚ`. -/
structure EnvData where
  country_code : String
  frequency : String
  measure_code : String
  Measure : String
  erosion_level : String
  water_type : String
  nutrient_type : String
  Nutrients : String
  unit : String
  year : Int
  value : ℚ
  decimals : Int
  Decimals : String
  status : String
  UNIT_MULT : ℚ
  BASE_PER : Option ℚ
deriving Repr, DecidableEq

/-- The `{country, year, value}` projection produced by
`filterProtectionCoefficient`. -/
structure FilteredTuple where
  country : String
  year : Int
  value : ℚ
deriving Repr, DecidableEq

/-- Lower-casing of a string, character by character, modelling
JavaScript `String.prototype.toLowerCase` on the ASCII labels used by
the dataset. (Defined over the character list so that it evaluates in
the kernel.) -/
def strToLower (s : String) : String :=
  ⟨s.data.map Char.toLower⟩

/-- Containment of `pat` in a character list, checking every suffix,
modelling JavaScript `String.prototype.includes`. -/
def charsContains (pat : List Char) : List Char → Bool
  | [] => pat.isEmpty
  | c :: rest => ((c :: rest).take pat.length == pat) || charsContains pat rest

/-- JavaScript `s.includes(pat)`. -/
def strIncludes (s pat : String) : Bool :=
  charsContains pat.data s.data

/-- Lookup in an association list, modelling `Map.prototype.get` /
object indexing. -/
def mapGet {α β : Type} [DecidableEq α] : List (α × β) → α → Option β
  | [], _ => none
  | (k, v) :: m, k' => if k = k' then some v else mapGet m k'

/-- Insertion into an association list, modelling `Map.prototype.set` /
object key assignment: an existing key is overwritten in place (keeping
its original position), a new key is appended at the end. -/
def mapSet {α β : Type} [DecidableEq α] : List (α × β) → α → β → List (α × β)
  | [], k, v => [(k, v)]
  | (k', v') :: m, k, v =>
      if k' = k then (k, v) :: m else (k', v') :: mapSet m k v

/-- In-place update of the entry at a key (a no-op when the key is
absent), modelling `map.get(k)` followed by mutation of the retrieved
entry object. -/
def mapUpdate {α β : Type} [DecidableEq α] : List (α × β) → α → (β → β) → List (α × β)
  | [], _, _ => []
  | (k', v') :: m, k, f =>
      if k' = k then (k', f v') :: m else (k', v') :: mapUpdate m k f

/-- The key sequence of an association list (`Map` iteration order). -/
def keys {α β : Type} (m : List (α × β)) : List α :=
  m.map Prod.fst

/-- Embeds `filterProtectionCoefficient` from
`front-end/src/utils/filter.ts`: keep records whose `Measure` equals
`"Producer Nominal Protection Coefficient"` (exact, case-sensitive
comparison via `===`) and project each to `{country, year, value}`.
The `console.log` calls of the source are side effects with no bearing
on the returned value and are not modelled. -/
def filterProtectionCoefficient (data : List EnvData) : List FilteredTuple :=
  (data.filter fun d => d.Measure == "Producer Nominal Protection Coefficient").map
    fun d => ⟨d.country_code, d.year, d.value⟩

/-- Embeds `getNutrientSurplusByCountry` from
`front-end/src/utils/filter.ts`: keep records matching the year, the
nutrient type (the TypeScript signature restricts `nutrient` to
`"Nitrogen" | "Phosphorus"`, erased at runtime, so it is modelled as a
string), and whose lower-cased measure label contains `"surplus"`. -/
def getNutrientSurplusByCountry (data : List EnvData) (nutrient : String)
    (year : Int) : List EnvData :=
  data.filter fun d =>
    d.year == year && d.nutrient_type == nutrient &&
      strIncludes (strToLower d.Measure) "surplus"

/-- Embeds `groupByMeasure` from `front-end/src/utils/filter.ts`:
despite its name it is another filter — keep records matching the
nutrient type, the year, and whose lower-cased measure label contains
`"surplus"`. -/
def groupByMeasure (data : List EnvData) (nutrient : String)
    (year : Int) : List EnvData :=
  data.filter fun d =>
    d.nutrient_type == nutrient && d.year == year &&
      strIncludes (strToLower d.Measure) "surplus"

/-- The `nitrogenInput` subset built at the start of `getScatterData`. -/
def nitrogenInputOf (data : List EnvData) (year : Int) : List EnvData :=
  data.filter fun d =>
    d.nutrient_type == "Nitrogen" &&
      strIncludes (strToLower d.Measure) "input" && d.year == year

/-- The `livestock` subset built at the start of `getScatterData`. -/
def livestockOf (data : List EnvData) (year : Int) : List EnvData :=
  data.filter fun d =>
    strIncludes (strToLower d.Measure) "livestock" && d.year == year

/-- The value type of the lookup map built inside `getScatterData`. -/
structure ScatterEntry where
  nitrogen : ℚ
  livestock : ℚ
deriving Repr, DecidableEq

/-- One joined `{country, nitrogen, livestock}` output of
`getScatterData`. -/
structure ScatterPoint where
  country : String
  nitrogen : ℚ
  livestock : ℚ
deriving Repr, DecidableEq

/-- First pass of `getScatterData`:
`map.set(row.country_code, { nitrogen: row.value, livestock: 0 })`. -/
def scatterSeed (m : List (String × ScatterEntry)) (row : EnvData) :
    List (String × ScatterEntry) :=
  mapSet m row.country_code ⟨row.value, 0⟩

/-- Second pass of `getScatterData`: `const entry = map.get(...)`;
`if (entry) entry.livestock += row.value` (a no-op when the country is
absent from the map). -/
def scatterAccum (m : List (String × ScatterEntry)) (row : EnvData) :
    List (String × ScatterEntry) :=
  mapUpdate m row.country_code fun e => ⟨e.nitrogen, e.livestock + row.value⟩

/-- The lookup map of `getScatterData` after both passes. -/
def scatterMapOf (data : List EnvData) (year : Int) :
    List (String × ScatterEntry) :=
  (livestockOf data year).foldl scatterAccum
    ((nitrogenInputOf data year).foldl scatterSeed [])

/-- Embeds `getScatterData` from `front-end/src/utils/filter.ts`:
filter the nitrogen-input and livestock subsets, build the lookup map
(seed then accumulate), then
`Array.from(map.entries()).map(([country, values]) => ({country, ...values}))`. -/
def getScatterData (data : List EnvData) (year : Int) : List ScatterPoint :=
  (scatterMapOf data year).map fun p => ⟨p.1, p.2.nitrogen, p.2.livestock⟩

/-- One row of the chart data built in the `TimeSeries` component:
`{ year, [countryCode]: value }`, the per-country fields modelled as an
association list. -/
structure YearRow where
  year : Int
  fields : List (String × ℚ)
deriving Repr, DecidableEq

/-- One step of the grouping loop in `TimeSeries`:
`if (!grouped[d.year]) grouped[d.year] = { year: d.year };`
`grouped[d.year][d.country_code] = d.value;`. -/
def timeSeriesStep (g : List (Int × YearRow)) (d : EnvData) :
    List (Int × YearRow) :=
  let ensured := if (mapGet g d.year).isSome then g
    else mapSet g d.year ⟨d.year, []⟩
  mapUpdate ensured d.year fun row =>
    ⟨row.year, mapSet row.fields d.country_code d.value⟩

/-- The `grouped` dictionary built by the `TimeSeries` component: filter
to the protection-coefficient records of the selected countries, then
run the grouping loop. -/
def yearGroups (data : List EnvData) (selectedCountries : List String) :
    List (Int × YearRow) :=
  (data.filter fun d =>
    d.Measure == "Producer Nominal Protection Coefficient" &&
      selectedCountries.contains d.country_code).foldl timeSeriesStep []

/-- Embeds the filter-and-group logic of the `TimeSeries` component
(called `buildYearSeries` in the spec): keep records whose measure is the
protection coefficient and whose country is selected, group them into
year-keyed rows setting the per-country field, then sort the rows by
year ascending (`Object.values(grouped).sort((a, b) => a.year - b.year)`;
since each year occurs at most once the sorted output does not depend on
the intermediate key order of the dictionary). -/
def buildYearSeries (data : List EnvData) (selectedCountries : List String) :
    List YearRow :=
  ((yearGroups data selectedCountries).map Prod.snd).mergeSort
    fun a b => a.year ≤ b.year

/-- Value of the field for country `c` on the year-`y` row of the
grouped dictionary (`grouped[y][c]`), when both exist. -/
def fieldAt (g : List (Int × YearRow)) (y : Int) (c : String) : Option ℚ :=
  match mapGet g y with
  | none => none
  | some row => mapGet row.fields c

/-- Modelled from the spec: the operation
`filterByNutrientAndKeyword(records, nutrientType, year, keyword)` is
described in §4.1 of the spec but has no general counterpart under
`src/` — `getNutrientSurplusByCountry` hard-codes the keyword
`"surplus"`. Following the words of the spec: match exact year, exact
nutrient-type string, and case-insensitive substring match of `keyword`
against the measure label, lower-casing both sides before the substring
comparison. -/
def filterByNutrientAndKeyword (data : List EnvData) (nutrientType : String)
    (year : Int) (keyword : String) : List EnvData :=
  data.filter fun d =>
    d.year == year && d.nutrient_type == nutrientType &&
      strIncludes (strToLower d.Measure) (strToLower keyword)

/-- First-encounter order of a list of country codes starting from an
already-collected initial segment: the order in which a JavaScript `Map` keyed by
those codes lists its keys. -/
def insertionOrderFrom (acc : List String) (cs : List String) : List String :=
  cs.foldl (fun a c => if c ∈ a then a else a ++ [c]) acc

/-- Sum of the `value` fields of the records of `l` for country `c`. -/
def sumValuesFor (l : List EnvData) (c : String) : ℚ :=
  ((l.filter fun d => d.country_code == c).map fun d => d.value).sum

/-- A sample record with the given country code, measure label, nutrient
type, year and value (the remaining descriptive fields, which the core
never reads, are fixed), used to evaluate the operations on concrete
inputs. -/
def sampleRec (cc meas nt : String) (y : Int) (v : ℚ) : EnvData :=
  ⟨cc, "A", "M", meas, "", "", nt, nt, "T", y, v, 0, "0", "", 1, none⟩

/-- Concrete protection-coefficient record for Argentina, year 2001,
value 9 (processed first). -/
def wT1 : EnvData :=
  sampleRec "ARG" "Producer Nominal Protection Coefficient" "" 2001 9

/-- Concrete protection-coefficient record for Argentina, year 2001,
value 11 (processed second). -/
def wT2 : EnvData :=
  sampleRec "ARG" "Producer Nominal Protection Coefficient" "" 2001 11

/-- Concrete record set with one nitrogen-input record and two livestock
records, all for Argentina, year 2000. -/
def dEx3 : List EnvData :=
  [sampleRec "ARG" "Nitrogen input per hectare" "Nitrogen" 2000 10,
   sampleRec "ARG" "Livestock units" "X" 2000 3,
   sampleRec "ARG" "Livestock density" "X" 2000 2]

/-- Concrete record set where Uruguay appears only in the livestock
subset. -/
def dEx4 : List EnvData :=
  [sampleRec "ARG" "Nitrogen input per hectare" "Nitrogen" 2000 10,
   sampleRec "URY" "Livestock units" "X" 2000 3]

/-- Concrete record set with a protection-coefficient record and a
nitrogen-input record (no livestock records). -/
def dEx8 : List EnvData :=
  [sampleRec "ARG" "Producer Nominal Protection Coefficient" "" 2000 10,
   sampleRec "ARG" "Nitrogen input per hectare" "Nitrogen" 2000 7]

/-- Concrete record set with two nitrogen-input records for the same
country. -/
def dEx10 : List EnvData :=
  [sampleRec "ARG" "Nitrogen input per hectare" "Nitrogen" 2000 10,
   sampleRec "ARG" "Nitrogen input, total" "Nitrogen" 2000 12,
   sampleRec "BRA" "Nitrogen input per hectare" "Nitrogen" 2000 4]

theorem keys_cons {α β : Type} (a : α × β) (m : List (α × β)) :
    keys (a :: m) = a.1 :: keys m := rfl

theorem keys_nil {α β : Type} : keys ([] : List (α × β)) = [] := rfl

theorem mapGet_mapSet {α β : Type} [DecidableEq α] (m : List (α × β))
    (k : α) (v : β) (k' : α) :
    mapGet (mapSet m k v) k' = if k = k' then some v else mapGet m k' := by
  induction m with
  | nil => simp [mapSet, mapGet]
  | cons a m ih =>
      obtain ⟨a1, a2⟩ := a
      by_cases h1 : a1 = k <;> by_cases h2 : k = k' <;>
        simp_all [mapSet, mapGet]

theorem mapGet_mapUpdate {α β : Type} [DecidableEq α] (m : List (α × β))
    (k : α) (f : β → β) (k' : α) :
    mapGet (mapUpdate m k f) k' =
      if k = k' then (mapGet m k').map f else mapGet m k' := by
  induction m with
  | nil => simp [mapUpdate, mapGet]
  | cons a m ih =>
      obtain ⟨a1, a2⟩ := a
      by_cases h1 : a1 = k <;> by_cases h2 : k = k' <;>
        simp_all [mapUpdate, mapGet]

theorem keys_mapSet {α β : Type} [DecidableEq α] (m : List (α × β))
    (k : α) (v : β) :
    keys (mapSet m k v) = if k ∈ keys m then keys m else keys m ++ [k] := by
  induction m with
  | nil => simp [mapSet, keys]
  | cons a m ih =>
      obtain ⟨a1, a2⟩ := a
      by_cases h1 : a1 = k
      · subst h1
        simp [mapSet, keys_cons]
      · have h1' : ¬k = a1 := fun h => h1 h.symm
        by_cases h2 : k ∈ keys m <;>
          simp_all [mapSet, keys_cons]

theorem keys_mapUpdate {α β : Type} [DecidableEq α] (m : List (α × β))
    (k : α) (f : β → β) :
    keys (mapUpdate m k f) = keys m := by
  induction m with
  | nil => rfl
  | cons a m ih =>
      obtain ⟨a1, a2⟩ := a
      by_cases h1 : a1 = k <;> simp_all [mapUpdate, keys_cons]

theorem mapGet_eq_none_iff {α β : Type} [DecidableEq α] (m : List (α × β))
    (k : α) : mapGet m k = none ↔ k ∉ keys m := by
  induction m with
  | nil => simp [mapGet, keys]
  | cons a m ih =>
      obtain ⟨a1, a2⟩ := a
      by_cases h1 : a1 = k <;> simp_all [mapGet, keys_cons, eq_comm]

theorem mapGet_mem {α β : Type} [DecidableEq α] (m : List (α × β))
    (k : α) (v : β) (h : mapGet m k = some v) : (k, v) ∈ m := by
  induction m with
  | nil => simp [mapGet] at h
  | cons a m ih =>
      obtain ⟨a1, a2⟩ := a
      by_cases h1 : a1 = k <;> simp_all [mapGet]

theorem mem_keys_of_mem {α β : Type} {m : List (α × β)} {k : α} {v : β}
    (h : (k, v) ∈ m) : k ∈ keys m :=
  List.mem_map.mpr ⟨(k, v), h, rfl⟩

theorem mem_mapGet {α β : Type} [DecidableEq α] (m : List (α × β))
    (k : α) (v : β) (hnd : (keys m).Nodup) (h : (k, v) ∈ m) :
    mapGet m k = some v := by
  induction m with
  | nil => simp at h
  | cons a m ih =>
      obtain ⟨a1, a2⟩ := a
      rw [keys_cons, List.nodup_cons] at hnd
      rcases List.mem_cons.mp h with h0 | h0
      · obtain ⟨rfl, rfl⟩ := Prod.mk.inj h0
        simp [mapGet]
      · have hkm : k ∈ keys m := mem_keys_of_mem h0
        have hne : a1 ≠ k := fun hcon => hnd.1 (hcon ▸ hkm)
        simp [mapGet, hne, ih hnd.2 h0]

theorem mem_mapSet_cases {α β : Type} [DecidableEq α] (m : List (α × β))
    (k : α) (v : β) (x : α × β) (h : x ∈ mapSet m k v) :
    x ∈ m ∨ x = (k, v) := by
  induction m with
  | nil => simp [mapSet] at h; simp [h]
  | cons a m ih =>
      obtain ⟨a1, a2⟩ := a
      by_cases h1 : a1 = k
      · subst h1
        simp only [mapSet, if_pos rfl] at h
        rcases List.mem_cons.mp h with h0 | h0
        · exact Or.inr h0
        · exact Or.inl (List.mem_cons_of_mem _ h0)
      · simp only [mapSet, if_neg h1] at h
        rcases List.mem_cons.mp h with h0 | h0
        · exact Or.inl (h0 ▸ List.mem_cons_self _ _)
        · rcases ih h0 with h2 | h2
          · exact Or.inl (List.mem_cons_of_mem _ h2)
          · exact Or.inr h2

theorem mem_mapUpdate_cases {α β : Type} [DecidableEq α] (m : List (α × β))
    (k : α) (f : β → β) (x : α × β) (h : x ∈ mapUpdate m k f) :
    x ∈ m ∨ ∃ v, (k, v) ∈ m ∧ x = (k, f v) := by
  induction m with
  | nil => simp [mapUpdate] at h
  | cons a m ih =>
      obtain ⟨a1, a2⟩ := a
      by_cases h1 : a1 = k
      · subst h1
        simp only [mapUpdate, if_pos rfl] at h
        rcases List.mem_cons.mp h with h0 | h0
        · exact Or.inr ⟨a2, List.mem_cons_self _ _, h0⟩
        · exact Or.inl (List.mem_cons_of_mem _ h0)
      · simp only [mapUpdate, if_neg h1] at h
        rcases List.mem_cons.mp h with h0 | h0
        · exact Or.inl (h0 ▸ List.mem_cons_self _ _)
        · rcases ih h0 with h2 | h2
          · exact Or.inl (List.mem_cons_of_mem _ h2)
          · obtain ⟨v', hv', hx⟩ := h2
            exact Or.inr ⟨v', List.mem_cons_of_mem _ hv', hx⟩

theorem insertionOrderFrom_nodup (cs : List String) :
    ∀ acc : List String, acc.Nodup → (insertionOrderFrom acc cs).Nodup := by
  induction cs with
  | nil => intro acc h; simpa [insertionOrderFrom] using h
  | cons c cs ih =>
      intro acc h
      simp only [insertionOrderFrom, List.foldl_cons]
      by_cases hc : c ∈ acc
      · simpa [insertionOrderFrom, hc] using ih acc h
      · have h2 : (acc ++ [c]).Nodup := by
          simp [List.nodup_append, h, hc]
        simpa [insertionOrderFrom, hc] using ih (acc ++ [c]) h2

theorem mem_insertionOrderFrom (cs : List String) :
    ∀ (acc : List String) (x : String),
      x ∈ insertionOrderFrom acc cs → x ∈ acc ∨ x ∈ cs := by
  induction cs with
  | nil => intro acc x h; exact Or.inl (by simpa [insertionOrderFrom] using h)
  | cons c cs ih =>
      intro acc x h
      simp only [insertionOrderFrom, List.foldl_cons] at h
      by_cases hc : c ∈ acc
      · rw [if_pos hc] at h
        rcases ih acc x h with h0 | h0
        · exact Or.inl h0
        · exact Or.inr (List.mem_cons_of_mem _ h0)
      · rw [if_neg hc] at h
        rcases ih (acc ++ [c]) x h with h0 | h0
        · rcases List.mem_append.mp h0 with h1 | h1
          · exact Or.inl h1
          · have hxc : x = c := List.mem_singleton.mp h1
            exact Or.inr (by simp [hxc])
        · exact Or.inr (List.mem_cons_of_mem _ h0)

theorem acc_subset_insertionOrderFrom (cs : List String) :
    ∀ (acc : List String) (x : String),
      x ∈ acc → x ∈ insertionOrderFrom acc cs := by
  induction cs with
  | nil => intro acc x h; simpa [insertionOrderFrom] using h
  | cons c cs ih =>
      intro acc x h
      simp only [insertionOrderFrom, List.foldl_cons]
      by_cases hc : c ∈ acc
      · rw [if_pos hc]; exact ih acc x h
      · rw [if_neg hc]
        exact ih (acc ++ [c]) x (List.mem_append.mpr (Or.inl h))

theorem mem_insertionOrderFrom_of_mem (cs : List String) :
    ∀ (acc : List String) (x : String),
      x ∈ cs → x ∈ insertionOrderFrom acc cs := by
  induction cs with
  | nil => intro acc x h; simp at h
  | cons c cs ih =>
      intro acc x h
      simp only [insertionOrderFrom, List.foldl_cons]
      rcases List.mem_cons.mp h with rfl | h0
      · by_cases hc : x ∈ acc
        · rw [if_pos hc]
          exact acc_subset_insertionOrderFrom cs acc x hc
        · rw [if_neg hc]
          exact acc_subset_insertionOrderFrom cs (acc ++ [x]) x
            (List.mem_append.mpr (Or.inr (List.mem_singleton.mpr rfl)))
      · by_cases hc : c ∈ acc
        · rw [if_pos hc]; exact ih acc x h0
        · rw [if_neg hc]; exact ih (acc ++ [c]) x h0

theorem scatterSeed_foldl_get (l : List EnvData) :
    ∀ (m : List (String × ScatterEntry)) (c : String),
      mapGet (l.foldl scatterSeed m) c =
        match l.reverse.find? (fun d => d.country_code == c) with
        | some d => some ⟨d.value, 0⟩
        | none => mapGet m c := by
  induction l with
  | nil => intro m c; rfl
  | cons d l ih =>
      intro m c
      rw [List.foldl_cons, ih, List.reverse_cons, List.find?_append]
      cases hf : l.reverse.find? (fun d => d.country_code == c) with
      | some e => simp [hf, Option.or]
      | none =>
          by_cases h : d.country_code = c
          · have hb : (d.country_code == c) = true := beq_iff_eq.mpr h
            simp [hf, Option.or, scatterSeed, mapGet_mapSet, h, hb, List.find?]
          · have hb : (d.country_code == c) = false := beq_eq_false_iff_ne.mpr h
            simp [hf, Option.or, scatterSeed, mapGet_mapSet, h, hb, List.find?]

theorem sumValuesFor_cons (d : EnvData) (l : List EnvData) (c : String) :
    sumValuesFor (d :: l) c =
      if d.country_code = c then d.value + sumValuesFor l c
      else sumValuesFor l c := by
  by_cases h : d.country_code = c <;>
    simp [sumValuesFor, List.filter_cons, h]

theorem scatterAccum_foldl_get (l : List EnvData) :
    ∀ (m : List (String × ScatterEntry)) (c : String),
      mapGet (l.foldl scatterAccum m) c =
        (mapGet m c).map fun e => ⟨e.nitrogen, e.livestock + sumValuesFor l c⟩ := by
  induction l with
  | nil =>
      intro m c
      cases h : mapGet m c with
      | none => simp [h]
      | some e => cases e; simp [h, sumValuesFor]
  | cons d l ih =>
      intro m c
      rw [List.foldl_cons, ih, sumValuesFor_cons]
      by_cases h : d.country_code = c
      · rw [scatterAccum, mapGet_mapUpdate, if_pos h, if_pos h]
        cases hm : mapGet m c with
        | none => simp
        | some e => cases e; simp [add_assoc]
      · rw [scatterAccum, mapGet_mapUpdate, if_neg h, if_neg h]

theorem keys_foldl_scatterSeed (l : List EnvData) :
    ∀ m : List (String × ScatterEntry),
      keys (l.foldl scatterSeed m) =
        insertionOrderFrom (keys m) (l.map fun d => d.country_code) := by
  induction l with
  | nil => intro m; rfl
  | cons d l ih =>
      intro m
      rw [List.foldl_cons, ih]
      simp only [List.map_cons, insertionOrderFrom, List.foldl_cons]
      congr 1
      rw [scatterSeed, keys_mapSet]

theorem keys_foldl_scatterAccum (l : List EnvData) :
    ∀ m : List (String × ScatterEntry),
      keys (l.foldl scatterAccum m) = keys m := by
  induction l with
  | nil => intro m; rfl
  | cons d l ih =>
      intro m
      rw [List.foldl_cons, ih, scatterAccum, keys_mapUpdate]

theorem scatterMap_keys (data : List EnvData) (year : Int) :
    keys (scatterMapOf data year) =
      insertionOrderFrom [] ((nitrogenInputOf data year).map fun d => d.country_code) := by
  rw [scatterMapOf, keys_foldl_scatterAccum, keys_foldl_scatterSeed]
  rfl

theorem scatterMap_keys_nodup (data : List EnvData) (year : Int) :
    (keys (scatterMapOf data year)).Nodup := by
  rw [scatterMap_keys]
  exact insertionOrderFrom_nodup _ _ List.nodup_nil

theorem scatter_countries_eq_keys (data : List EnvData) (year : Int) :
    (getScatterData data year).map (fun p => p.country) =
      keys (scatterMapOf data year) := by
  rw [getScatterData, List.map_map]
  rfl

theorem scatterMap_get_of_mem (data : List EnvData) (year : Int)
    (p : ScatterPoint) (h : p ∈ getScatterData data year) :
    mapGet (scatterMapOf data year) p.country = some ⟨p.nitrogen, p.livestock⟩ := by
  rw [getScatterData] at h
  obtain ⟨⟨k, e⟩, hm, he⟩ := List.mem_map.mp h
  have hget := mem_mapGet _ _ _ (scatterMap_keys_nodup data year) hm
  cases he
  exact hget

theorem fieldAt_timeSeriesStep (g : List (Int × YearRow)) (d : EnvData)
    (y : Int) (c : String) :
    fieldAt (timeSeriesStep g d) y c =
      if d.year = y ∧ d.country_code = c then some d.value
      else fieldAt g y c := by
  by_cases hy : d.year = y
  · subst hy
    cases hg : mapGet g d.year with
    | some row =>
        simp only [timeSeriesStep, hg, Option.isSome_some, if_pos]
        by_cases hc : d.country_code = c
        · simp [fieldAt, mapGet_mapUpdate, hg, mapGet_mapSet, hc]
        · simp [fieldAt, mapGet_mapUpdate, hg, mapGet_mapSet, hc]
    | none =>
        simp only [timeSeriesStep, hg, Option.isSome_none, Bool.false_eq_true,
          if_false]
        by_cases hc : d.country_code = c
        · simp [fieldAt, mapGet_mapUpdate, mapGet_mapSet, mapGet, hg, hc]
        · simp [fieldAt, mapGet_mapUpdate, mapGet_mapSet, mapGet, hg, hc]
  · have hcond : ¬(d.year = y ∧ d.country_code = c) := fun h => hy h.1
    rw [if_neg hcond]
    cases hs : (mapGet g d.year).isSome with
    | true =>
        simp only [timeSeriesStep, hs, if_pos]
        simp [fieldAt, mapGet_mapUpdate, hy]
    | false =>
        simp only [timeSeriesStep, hs, Bool.false_eq_true, if_false]
        simp [fieldAt, mapGet_mapUpdate, mapGet_mapSet, hy]

theorem fieldAt_foldl_no_match (l : List EnvData) (y : Int) (c : String) :
    ∀ g : List (Int × YearRow),
      (∀ d ∈ l, ¬(d.year = y ∧ d.country_code = c)) →
      fieldAt (l.foldl timeSeriesStep g) y c = fieldAt g y c := by
  induction l with
  | nil => intro g _; rfl
  | cons d l ih =>
      intro g h
      rw [List.foldl_cons, ih _ fun e he => h e (List.mem_cons_of_mem _ he),
        fieldAt_timeSeriesStep, if_neg (h d (List.mem_cons_self _ _))]

theorem keys_timeSeriesStep_nodup (g : List (Int × YearRow)) (d : EnvData)
    (h : (keys g).Nodup) : (keys (timeSeriesStep g d)).Nodup := by
  cases hg : mapGet g d.year with
  | some row =>
      simp only [timeSeriesStep, hg, Option.isSome_some, if_pos]
      rwa [keys_mapUpdate]
  | none =>
      simp only [timeSeriesStep, hg, Option.isSome_none, Bool.false_eq_true,
        if_false]
      rw [keys_mapUpdate, keys_mapSet,
        if_neg ((mapGet_eq_none_iff g d.year).mp hg)]
      simp [List.nodup_append, h, (mapGet_eq_none_iff g d.year).mp hg]

theorem keys_foldl_timeSeries_nodup (l : List EnvData) :
    ∀ g : List (Int × YearRow),
      (keys g).Nodup → (keys (l.foldl timeSeriesStep g)).Nodup := by
  induction l with
  | nil => intro g h; exact h
  | cons d l ih =>
      intro g h
      exact ih _ (keys_timeSeriesStep_nodup g d h)

theorem timeSeriesStep_year_inv (g : List (Int × YearRow)) (d : EnvData)
    (h : ∀ kr ∈ g, (Prod.snd kr).year = kr.1) :
    ∀ kr ∈ timeSeriesStep g d, (Prod.snd kr).year = kr.1 := by
  intro kr hkr
  have hens : ∀ kr ∈ (if (mapGet g d.year).isSome then g
      else mapSet g d.year ⟨d.year, []⟩), (Prod.snd kr).year = kr.1 := by
    intro x hx
    cases hs : (mapGet g d.year).isSome with
    | true => exact h x (by simpa [hs] using hx)
    | false =>
        rw [hs] at hx
        simp only [Bool.false_eq_true, if_false] at hx
        rcases mem_mapSet_cases _ _ _ _ hx with h0 | h0
        · exact h x h0
        · subst h0; rfl
  rw [timeSeriesStep] at hkr
  rcases mem_mapUpdate_cases _ _ _ _ hkr with h0 | h0
  · exact hens kr h0
  · obtain ⟨row, hrow, hx⟩ := h0
    subst hx
    exact hens (d.year, row) hrow

theorem timeSeries_foldl_year_inv (l : List EnvData) :
    ∀ g : List (Int × YearRow),
      (∀ kr ∈ g, (Prod.snd kr).year = kr.1) →
      ∀ kr ∈ l.foldl timeSeriesStep g, (Prod.snd kr).year = kr.1 := by
  induction l with
  | nil => intro g h; exact h
  | cons d l ih =>
      intro g h
      exact ih _ (timeSeriesStep_year_inv g d h)

theorem scatterMap_get (data : List EnvData) (year : Int) (c : String) :
    mapGet (scatterMapOf data year) c =
      match (nitrogenInputOf data year).reverse.find?
          (fun d => d.country_code == c) with
      | some d => some ⟨d.value, sumValuesFor (livestockOf data year) c⟩
      | none => none := by
  rw [scatterMapOf, scatterAccum_foldl_get, scatterSeed_foldl_get]
  cases hf : (nitrogenInputOf data year).reverse.find?
      (fun d => d.country_code == c) with
  | some d => simp [zero_add]
  | none => simp [mapGet]

/-- C1: `filterProtectionCoefficient` returns exactly one
`{country, year, value}` tuple per record whose `Measure` equals
`"Producer Nominal Protection Coefficient"` (case-sensitive exact
equality), in input order, so the output length equals the count of such
records; zero matches give an empty list, not an error. -/
theorem filterProtectionCoefficient_spec (data : List EnvData) :
    (filterProtectionCoefficient data).length =
        data.countP (fun d =>
          d.Measure == "Producer Nominal Protection Coefficient")
      ∧ filterProtectionCoefficient data =
          (data.filter fun d =>
            d.Measure == "Producer Nominal Protection Coefficient").map
            (fun d => ⟨d.country_code, d.year, d.value⟩)
      ∧ (filterProtectionCoefficient data = [] ↔
          ∀ d ∈ data,
            d.Measure ≠ "Producer Nominal Protection Coefficient") := by
  refine ⟨?_, rfl, ?_⟩
  · rw [filterProtectionCoefficient, List.length_map,
      List.countP_eq_length_filter]
  · rw [filterProtectionCoefficient]
    simp [List.map_eq_nil_iff, List.filter_eq_nil_iff]

/-- C5: the operation `filterByNutrientAndKeyword` of the spec (modelled from the spec,
see its definition) is case-insensitive in the keyword: asking for
`"Surplus"` and for `"surplus"` gives identical results, because both
the measure label and the keyword are lower-cased before the substring
comparison. -/
theorem filterByNutrientAndKeyword_case_insensitive (data : List EnvData)
    (year : Int) :
    filterByNutrientAndKeyword data "Nitrogen" year "Surplus" =
      filterByNutrientAndKeyword data "Nitrogen" year "surplus" := by
  have h : strToLower "Surplus" = strToLower "surplus" := by decide
  simp only [filterByNutrientAndKeyword, h]

/-- C6: the joined pairs of `getScatterData` are listed in the lookup
map in its insertion order, i.e. the order in which each country is first
encountered while iterating the nitrogen-input subset. -/
theorem getScatterData_insertion_order (data : List EnvData) (year : Int) :
    (getScatterData data year).map (fun p => p.country) =
      insertionOrderFrom []
        ((nitrogenInputOf data year).map fun d => d.country_code) := by
  rw [scatter_countries_eq_keys, scatterMap_keys]

/-- C7: every core operation applied to the empty record set returns the
empty list (deterministically, with no error and no special-case
branching). -/
theorem empty_input_law (nutrient other : String) (year otherYear : Int) :
    filterProtectionCoefficient [] = []
      ∧ getNutrientSurplusByCountry [] nutrient year = []
      ∧ getScatterData [] year = []
      ∧ groupByMeasure [] other otherYear = [] :=
  ⟨rfl, rfl, rfl, rfl⟩

/-- C9: `groupByMeasure` and `getNutrientSurplusByCountry` compute the
same function on every record set, year, and nutrient in
`{"Nitrogen", "Phosphorus"}` (their filter predicates test the same
three conditions, merely ordering the conjuncts differently). -/
theorem groupByMeasure_eq_getNutrientSurplusByCountry (data : List EnvData)
    (nutrient : String) (year : Int)
    (hn : nutrient = "Nitrogen" ∨ nutrient = "Phosphorus") :
    groupByMeasure data nutrient year =
      getNutrientSurplusByCountry data nutrient year := by
  rw [groupByMeasure, getNutrientSurplusByCountry]
  refine List.filter_congr fun d _ => ?_
  cases d.nutrient_type == nutrient <;> cases d.year == year <;> simp

/-- Witness for C9 at a concrete record set and nutrient. -/
theorem groupByMeasure_eq_getNutrientSurplusByCountry_witness :
    ("Nitrogen" = "Nitrogen" ∨ "Nitrogen" = "Phosphorus")
      ∧ groupByMeasure
          [⟨"ARG", "A", "M", "Nitrogen Balance (surplus)", "", "",
            "Nitrogen", "Nitrogen", "T", 2000, 5, 0, "0", "", 1, none⟩]
          "Nitrogen" 2000 =
        getNutrientSurplusByCountry
          [⟨"ARG", "A", "M", "Nitrogen Balance (surplus)", "", "",
            "Nitrogen", "Nitrogen", "T", 2000, 5, 0, "0", "", 1, none⟩]
          "Nitrogen" 2000 :=
  ⟨Or.inl rfl,
    groupByMeasure_eq_getNutrientSurplusByCountry _ "Nitrogen" 2000
      (Or.inl rfl)⟩

/-- C3: for every country present in the nitrogen-input subset, the
joined pair `getScatterData` outputs for that country has a `livestock`
field equal to the sum of the values of all livestock-subset records for
that country; when the livestock subset has no record for that country
the field keeps the zero seed (the empty sum). -/
theorem getScatterData_accumulation (data : List EnvData) (year : Int)
    (c : String)
    (hc : c ∈ (nitrogenInputOf data year).map fun d => d.country_code) :
    (∃ p ∈ getScatterData data year, p.country = c)
      ∧ (∀ p ∈ getScatterData data year, p.country = c →
          p.livestock = sumValuesFor (livestockOf data year) c)
      ∧ ∀ p ∈ getScatterData data year, p.country = c →
          (livestockOf data year).filter (fun d => d.country_code == c) = [] →
          p.livestock = 0 := by
  have hfind : ∃ d, (nitrogenInputOf data year).reverse.find?
      (fun d => d.country_code == c) = some d := by
    cases hf : (nitrogenInputOf data year).reverse.find?
        (fun d => d.country_code == c) with
    | some d => exact ⟨d, rfl⟩
    | none =>
        rw [List.find?_eq_none] at hf
        obtain ⟨d, hd, hdc⟩ := List.mem_map.mp hc
        exact absurd (beq_iff_eq.mpr hdc)
          (by simpa using hf d (List.mem_reverse.mpr hd))
  have hlive : ∀ p ∈ getScatterData data year, p.country = c →
      p.livestock = sumValuesFor (livestockOf data year) c := by
    intro p hp hpc
    have h1 := scatterMap_get_of_mem data year p hp
    rw [hpc, scatterMap_get] at h1
    obtain ⟨d, hd⟩ := hfind
    rw [hd] at h1
    have h2 := Option.some.inj h1
    exact (congrArg ScatterEntry.livestock h2).symm
  refine ⟨?_, hlive, ?_⟩
  · have hkeys : c ∈ keys (scatterMapOf data year) := by
      rw [scatterMap_keys]
      exact mem_insertionOrderFrom_of_mem _ _ _ hc
    rw [← scatter_countries_eq_keys] at hkeys
    obtain ⟨p, hp, hpc⟩ := List.mem_map.mp hkeys
    exact ⟨p, hp, hpc⟩
  · intro p hp hpc hnil
    rw [hlive p hp hpc, sumValuesFor, hnil]
    rfl

/-- Witness for C3 on a record set with one nitrogen-input record and
two livestock records for the same country. -/
theorem getScatterData_accumulation_witness :
    ("ARG" ∈ (nitrogenInputOf dEx3 2000).map fun d => d.country_code)
      ∧ ((∃ p ∈ getScatterData dEx3 2000, p.country = "ARG")
          ∧ (∀ p ∈ getScatterData dEx3 2000, p.country = "ARG" →
              p.livestock = sumValuesFor (livestockOf dEx3 2000) "ARG")
          ∧ ∀ p ∈ getScatterData dEx3 2000, p.country = "ARG" →
              (livestockOf dEx3 2000).filter
                (fun d => d.country_code == "ARG") = [] →
              p.livestock = 0) :=
  ⟨by decide, getScatterData_accumulation dEx3 2000 "ARG" (by decide)⟩

/-- C4: `getScatterData` is a left join based on the country set of the
nitrogen-input subset — a country that appears only in the livestock subset never
appears in the output (it is silently dropped, with no error). -/
theorem getScatterData_left_join (data : List EnvData) (year : Int)
    (c : String)
    (hc : c ∉ (nitrogenInputOf data year).map fun d => d.country_code) :
    c ∉ (getScatterData data year).map fun p => p.country := by
  rw [scatter_countries_eq_keys, scatterMap_keys]
  intro hmem
  rcases mem_insertionOrderFrom _ _ _ hmem with h0 | h0
  · simp at h0
  · exact hc h0

/-- Witness for C4 on a record set where Uruguay appears only in the
livestock subset. -/
theorem getScatterData_left_join_witness :
    ("URY" ∉ (nitrogenInputOf dEx4 2000).map fun d => d.country_code)
      ∧ "URY" ∉ (getScatterData dEx4 2000).map fun p => p.country :=
  ⟨by decide, getScatterData_left_join dEx4 2000 "URY" (by decide)⟩

/-- C8: the core operations are total functions that pass field values
through unchanged: the two surplus filters return sublists of their
input, every tuple of `filterProtectionCoefficient` carries the country,
year and value of some input record as-is, and every joined pair of
`getScatterData` is keyed by the country code of some input record. No
input is rejected and no exception is modelled anywhere in the layer. -/
theorem core_operations_total (data : List EnvData) (nutrient other : String)
    (year : Int) :
    (getNutrientSurplusByCountry data nutrient year).Sublist data
      ∧ (groupByMeasure data other year).Sublist data
      ∧ (∀ t ∈ filterProtectionCoefficient data, ∃ d ∈ data,
          t.country = d.country_code ∧ t.year = d.year ∧ t.value = d.value)
      ∧ ∀ p ∈ getScatterData data year, ∃ d ∈ data,
          p.country = d.country_code := by
  refine ⟨List.filter_sublist data, List.filter_sublist data, ?_, ?_⟩
  · intro t ht
    rw [filterProtectionCoefficient] at ht
    obtain ⟨d, hd, he⟩ := List.mem_map.mp ht
    cases he
    exact ⟨d, List.mem_of_mem_filter hd, rfl, rfl, rfl⟩
  · intro p hp
    have hmem : p.country ∈ (getScatterData data year).map fun p => p.country :=
      List.mem_map.mpr ⟨p, hp, rfl⟩
    rw [scatter_countries_eq_keys, scatterMap_keys] at hmem
    rcases mem_insertionOrderFrom _ _ _ hmem with h0 | h0
    · simp at h0
    · obtain ⟨d, hd, hdc⟩ := List.mem_map.mp h0
      rw [nitrogenInputOf] at hd
      exact ⟨d, List.mem_of_mem_filter hd, hdc.symm⟩

/-- Witness for C8, instantiating each conjunct on a concrete record
set, a concrete output tuple and a concrete joined pair. -/
theorem core_operations_total_witness :
    (getNutrientSurplusByCountry dEx8 "Nitrogen" 2000).Sublist dEx8
      ∧ (groupByMeasure dEx8 "Nitrogen" 2000).Sublist dEx8
      ∧ (∃ d ∈ dEx8, (⟨"ARG", 2000, 10⟩ : FilteredTuple).country = d.country_code
          ∧ (⟨"ARG", 2000, 10⟩ : FilteredTuple).year = d.year
          ∧ (⟨"ARG", 2000, 10⟩ : FilteredTuple).value = d.value)
      ∧ ∃ d ∈ dEx8, (⟨"ARG", 7, 0⟩ : ScatterPoint).country = d.country_code := by
  have h := core_operations_total dEx8 "Nitrogen" "Nitrogen" 2000
  exact ⟨h.1, h.2.1, h.2.2.1 ⟨"ARG", 2000, 10⟩ (by decide),
    h.2.2.2 ⟨"ARG", 7, 0⟩ (by decide)⟩

/-- C10: the joined pairs of `getScatterData` have pairwise-distinct
countries, and the `nitrogen` field of each pair is seeded by the value
of the last nitrogen-input record for that country (overwrite on
duplicate first-subset countries). -/
theorem getScatterData_no_duplicate_countries (data : List EnvData)
    (year : Int) :
    ((getScatterData data year).map fun p => p.country).Nodup
      ∧ ∀ p ∈ getScatterData data year,
          some p.nitrogen =
            ((nitrogenInputOf data year).reverse.find?
              (fun d => d.country_code == p.country)).map fun d => d.value := by
  constructor
  · rw [scatter_countries_eq_keys]
    exact scatterMap_keys_nodup data year
  · intro p hp
    have h1 := scatterMap_get_of_mem data year p hp
    rw [scatterMap_get] at h1
    cases hf : (nitrogenInputOf data year).reverse.find?
        (fun d => d.country_code == p.country) with
    | none => rw [hf] at h1; exact absurd h1 (by simp)
    | some d =>
        rw [hf] at h1
        have h2 := Option.some.inj h1
        have h3 : d.value = p.nitrogen := congrArg ScatterEntry.nitrogen h2
        simp [h3]

/-- Witness for C10 on a record set with two nitrogen-input records for
the same country, instantiating the per-pair conjunct at a concrete
joined pair. -/
theorem getScatterData_no_duplicate_countries_witness :
    ((getScatterData dEx10 2000).map fun p => p.country).Nodup
      ∧ some (12 : ℚ) =
          ((nitrogenInputOf dEx10 2000).reverse.find?
            (fun d => d.country_code ==
              (⟨"ARG", 12, 0⟩ : ScatterPoint).country)).map fun d => d.value := by
  have h := getScatterData_no_duplicate_countries dEx10 2000
  exact ⟨h.1, h.2 ⟨"ARG", 12, 0⟩ (by decide)⟩

/-- C2: the grouping in `TimeSeries` has overwrite semantics — when the
input contains two protection-coefficient tuples for the same
(year, country) pair with values v1 then v2 (v1 processed first, the
country selected, and no later tuple for that pair), the resulting
field of the year-keyed row for that country equals v2, the last value
processed, not an accumulation. -/
theorem buildYearSeries_overwrite
    (pre mid post : List EnvData) (t1 t2 : EnvData) (sel : List String)
    (hyr : t1.year = t2.year) (hcc : t1.country_code = t2.country_code)
    (hm1 : t1.Measure = "Producer Nominal Protection Coefficient")
    (hm2 : t2.Measure = "Producer Nominal Protection Coefficient")
    (hsel : t2.country_code ∈ sel)
    (hlast : ∀ d ∈ post,
      ¬(d.year = t2.year ∧ d.country_code = t2.country_code)) :
    (∃ row ∈ buildYearSeries (pre ++ t1 :: mid ++ t2 :: post) sel,
        row.year = t2.year)
      ∧ ∀ row ∈ buildYearSeries (pre ++ t1 :: mid ++ t2 :: post) sel,
          row.year = t2.year →
          mapGet row.fields t2.country_code = some t2.value := by
  have hInput : pre ++ t1 :: mid ++ t2 :: post
      = (pre ++ t1 :: mid) ++ t2 :: post := by
    simp [List.append_assoc]
  have hcont : sel.contains t2.country_code = true :=
    List.elem_eq_true_of_mem hsel
  have hpt2 : (t2.Measure == "Producer Nominal Protection Coefficient" &&
      sel.contains t2.country_code) = true := by
    rw [show (t2.Measure == "Producer Nominal Protection Coefficient") = true
      from beq_iff_eq.mpr hm2, hcont]
    rfl
  have hfield : fieldAt (yearGroups (pre ++ t1 :: mid ++ t2 :: post) sel)
      t2.year t2.country_code = some t2.value := by
    rw [yearGroups, hInput, List.filter_append, List.filter_cons, hpt2,
      if_pos rfl, List.foldl_append, List.foldl_cons]
    rw [fieldAt_foldl_no_match _ _ _ _
      fun d hd => hlast d (List.mem_of_mem_filter hd)]
    rw [fieldAt_timeSeriesStep, if_pos ⟨rfl, rfl⟩]
  have hnodup : (keys (yearGroups (pre ++ t1 :: mid ++ t2 :: post) sel)).Nodup :=
    keys_foldl_timeSeries_nodup _ _ (by simp [keys])
  have hinv : ∀ kr ∈ yearGroups (pre ++ t1 :: mid ++ t2 :: post) sel,
      (Prod.snd kr).year = kr.1 :=
    timeSeries_foldl_year_inv _ _ (by simp)
  obtain ⟨row0, hget0, hfld0⟩ : ∃ row,
      mapGet (yearGroups (pre ++ t1 :: mid ++ t2 :: post) sel) t2.year
        = some row ∧ mapGet row.fields t2.country_code = some t2.value := by
    rw [fieldAt] at hfield
    cases hm : mapGet (yearGroups (pre ++ t1 :: mid ++ t2 :: post) sel)
        t2.year with
    | none => rw [hm] at hfield; exact absurd hfield (by simp)
    | some row => rw [hm] at hfield; exact ⟨row, rfl, hfield⟩
  have hmem0 : (t2.year, row0) ∈ yearGroups (pre ++ t1 :: mid ++ t2 :: post) sel :=
    mapGet_mem _ _ _ hget0
  constructor
  · refine ⟨row0, ?_, hinv (t2.year, row0) hmem0⟩
    rw [buildYearSeries]
    exact List.mem_mergeSort.mpr (List.mem_map.mpr ⟨(t2.year, row0), hmem0, rfl⟩)
  · intro row hrow hryear
    rw [buildYearSeries] at hrow
    obtain ⟨⟨k, r⟩, hkr, hsnd⟩ := List.mem_map.mp (List.mem_mergeSort.mp hrow)
    cases hsnd
    have hk : k = t2.year := by
      have := hinv (k, r) hkr
      simp only at this
      rw [← hryear]
      exact this.symm
    subst hk
    have := mem_mapGet _ _ _ hnodup hkr
    rw [this] at hget0
    rw [← Option.some.inj hget0] at hfld0
    exact hfld0

/-- Witness for C2: two Argentine protection-coefficient tuples for year
2001 with values 9 then 11; the selected-country row for 2001 carries
11. -/
theorem buildYearSeries_overwrite_witness :
    (wT1.year = wT2.year ∧ wT1.country_code = wT2.country_code
      ∧ wT1.Measure = "Producer Nominal Protection Coefficient"
      ∧ wT2.Measure = "Producer Nominal Protection Coefficient"
      ∧ wT2.country_code ∈ ["ARG"]
      ∧ ∀ d ∈ ([] : List EnvData),
          ¬(d.year = wT2.year ∧ d.country_code = wT2.country_code))
      ∧ ((∃ row ∈ buildYearSeries ([] ++ wT1 :: [] ++ wT2 :: []) ["ARG"],
            row.year = wT2.year)
          ∧ ∀ row ∈ buildYearSeries ([] ++ wT1 :: [] ++ wT2 :: []) ["ARG"],
              row.year = wT2.year →
              mapGet row.fields wT2.country_code = some wT2.value) :=
  ⟨⟨rfl, rfl, rfl, rfl, by decide, by decide⟩,
    buildYearSeries_overwrite [] [] [] wT1 wT2 ["ARG"] rfl rfl rfl rfl
      (by decide) (by decide)⟩
